import Mathlib

/-!
Shallow embedding of `src/app.py` (StockDataAnalyzer).

The program is a pandas pipeline: `fetch_data` builds one OHLCV DataFrame per
symbol, `add_technical_indicators` appends indicator columns (computed by
pandas_ta), `process_all_stocks` accumulates per-symbol and combined tables,
and `create_summary_table` reduces each symbol's table to one summary row.

Modelling conventions:
* floats become `ℚ`; the float square root used by the Bollinger standard
  deviation is an explicit parameter `sqrtA : ℚ → ℚ` of the pipeline;
* a missing value (pandas `NaN` / `None`) is the explicit cell `Cell.nan`;
* a DataFrame is `Table`: the base OHLCV rows (never overwritten by the
  pipeline) plus an ordered association list of derived columns;
* a Python exception inside the indicator pipeline is modelled by the
  `Option`-valued indicator steps: a step returning `none` is a step whose
  pandas counterpart raises (joining `None`, or pandas_ta raising
  internally), and the surrounding `try/except` returns the table built so
  far.  Which steps raise is determined by the row count, exactly as in
  pandas_ta (`verify_series` returns `None` below the window length).
* numpy float division by zero (which yields `inf`/`nan`, IEEE infinities
  are not represented here) only occurs in columns no theorem below inspects;
  those cells use total `ℚ` division.  The summary divisions are modelled
  with a checked division `qdivE` so that a zero denominator is observable.
-/

/-- A pandas timestamp: a serial number giving the total order plus the
calendar fields that `df.index.year/month/day/dayofweek/date` read off. -/
structure Timestamp where
  serial : Nat
  year : Int
  month : Int
  day : Int
  dayOfWeek : Int
deriving DecidableEq, Repr, Inhabited

/-- One OHLCV row as produced by `fetch_data` (columns lowercased). -/
structure Bar where
  ts : Timestamp
  open_ : ℚ
  high : ℚ
  low : ℚ
  close : ℚ
  volume : ℚ
deriving DecidableEq, Repr, Inhabited

/-- One cell of a derived DataFrame column. -/
inductive Cell where
  | num (q : ℚ)
  | bool (b : Bool)
  | date (y m d : Int)
  | str (s : String)
  | nan
deriving DecidableEq, Repr, Inhabited

/-- A DataFrame: base OHLCV rows plus derived columns in insertion order. -/
structure Table where
  rows : List Bar
  cols : List (String × List Cell)
deriving DecidableEq, Repr, Inhabited

def Table.colNames (t : Table) : List String := t.cols.map (fun p => p.1)

/-- `df[name] = col`: replace the column if the name exists, else append it. -/
def setCol (t : Table) (name : String) (col : List Cell) : Table :=
  if t.colNames.contains name then
    { t with cols := t.cols.map (fun p => if p.1 = name then (name, col) else p) }
  else
    { t with cols := t.cols ++ [(name, col)] }

/-- `df = df.join(other)`: append the other frame's columns. -/
def joinCols (t : Table) (cs : List (String × List Cell)) : Table :=
  { t with cols := t.cols ++ cs }

def getCol (t : Table) (name : String) : Option (List Cell) :=
  (t.cols.find? (fun p => p.1 = name)).map (fun p => p.2)

def getCell (t : Table) (name : String) (i : Nat) : Option Cell :=
  (getCol t name).bind (fun c => c.get? i)

/-- Element of a rational list, `0` out of range (used only in range). -/
def nthQ (xs : List ℚ) (i : Nat) : ℚ := xs.getD i 0

/-- `close.diff()` at index `i ≥ 1`. -/
def delta (xs : List ℚ) (i : Nat) : ℚ := nthQ xs i - nthQ xs (i - 1)

/-- The positive part of the price change (`positive[positive < 0] = 0`). -/
def gainAt (xs : List ℚ) (i : Nat) : ℚ := max (delta xs i) 0

/-- The negated negative part of the price change (`negative.abs()`). -/
def lossAt (xs : List ℚ) (i : Nat) : ℚ := max (-(delta xs i)) 0

/-- Numerator of pandas `ewm(alpha, adjust=True).mean()` at index `i`, for an
input whose value at index `0` is NaN and whose value at `j ≥ 1` is `x j`:
`Σ_{j=1..i} (1-α)^(i-j) * x j`. -/
def wilderNum (x : Nat → ℚ) (α : ℚ) : Nat → ℚ
  | 0 => 0
  | i + 1 => (1 - α) * wilderNum x α i + x (i + 1)

/-- Denominator of the same weighted mean: `Σ_{j=1..i} (1-α)^(i-j)`. -/
def wilderDen (α : ℚ) : Nat → ℚ
  | 0 => 0
  | i + 1 => (1 - α) * wilderDen α i + 1

/-- Wilder average gain at index `i` (`rma(positive, 14)`, `alpha = 1/14`). -/
def rsiAvgGain (xs : List ℚ) (i : Nat) : ℚ :=
  wilderNum (gainAt xs) (1 / 14) i / wilderDen (1 / 14) i

/-- Wilder average loss at index `i` (`rma(negative.abs(), 14)`). -/
def rsiAvgLoss (xs : List ℚ) (i : Nat) : ℚ :=
  wilderNum (lossAt xs) (1 / 14) i / wilderDen (1 / 14) i

/-- The `rsi` cell at index `i`: NaN until 14 price changes have been seen
(`min_periods = 14` over a series whose index-0 diff is NaN), and NaN when
both averages are zero (float `0/0`). -/
def rsiCell (xs : List ℚ) (i : Nat) : Cell :=
  if i < 14 then Cell.nan
  else
    let pa := rsiAvgGain xs i
    let na := rsiAvgLoss xs i
    if pa + na = 0 then Cell.nan else Cell.num (100 * pa / (pa + na))

/-- `ta.rsi(close, length=14)`: all-NaN column below 14 rows
(`verify_series` returns `None` and `df['rsi'] = None`). -/
def rsiCol (xs : List ℚ) : List Cell :=
  if xs.length < 14 then List.replicate xs.length Cell.nan
  else (List.range xs.length).map (rsiCell xs)

/-- Sum of the `n`-window ending at index `i` (requires `n ≤ i + 1`). -/
def windowSum (xs : List ℚ) (i n : Nat) : ℚ :=
  ((List.range n).map (fun k => nthQ xs (i + 1 - n + k))).sum

/-- Rolling mean of the `n`-window ending at index `i`. -/
def windowMean (xs : List ℚ) (i n : Nat) : ℚ := windowSum xs i n / (n : ℚ)

/-- The `sma` cell at index `i` (`rolling(n, min_periods=n).mean()`). -/
def smaCell (n : Nat) (xs : List ℚ) (i : Nat) : Cell :=
  if i + 1 < n then Cell.nan else Cell.num (windowMean xs i n)

/-- `ta.sma(series, length=n)`: `None` (an all-NaN column) below `n` rows. -/
def smaCol (n : Nat) (xs : List ℚ) : List Cell :=
  if xs.length < n then List.replicate xs.length Cell.nan
  else (List.range xs.length).map (smaCell n xs)

/-- The EMA seed: mean of the first `n` values (pandas_ta `sma=True`). -/
def emaSeed (n : Nat) (xs : List ℚ) : ℚ := windowMean xs (n - 1) n

/-- EMA value at index `(n - 1) + k`: seeded with the SMA of the first `n`
values, then `ema = α·x + (1-α)·ema` with `α = 2/(n+1)` (`adjust=False`). -/
def emaFrom (n : Nat) (xs : List ℚ) : Nat → ℚ
  | 0 => emaSeed n xs
  | k + 1 =>
      (2 / ((n : ℚ) + 1)) * nthQ xs (n + k) + (1 - 2 / ((n : ℚ) + 1)) * emaFrom n xs k

/-- The `ema` cell at index `i`: NaN before index `n - 1`. -/
def emaCell (n : Nat) (xs : List ℚ) (i : Nat) : Cell :=
  if i + 1 < n then Cell.nan else Cell.num (emaFrom n xs (i + 1 - n))

/-- `ta.ema(series, length=n)`: `None` (an all-NaN column) below `n` rows. -/
def emaCol (n : Nat) (xs : List ℚ) : List Cell :=
  if xs.length < n then List.replicate xs.length Cell.nan
  else (List.range xs.length).map (emaCell n xs)

/-- MACD line at global index `25 + k`: `ema(close,12) - ema(close,26)`. -/
def macdSlice (xs : List ℚ) (k : Nat) : ℚ :=
  emaFrom 12 xs (k + 14) - emaFrom 26 xs k

/-- The MACD-line cell: NaN before both EMAs are defined (index 25). -/
def macdLineCell (xs : List ℚ) (i : Nat) : Cell :=
  if i < 25 then Cell.nan else Cell.num (macdSlice xs (i - 25))

/-- Seed of the signal EMA(9), taken over the MACD line from its first valid
index (global index 25). -/
def signalSeed (xs : List ℚ) : ℚ := ((List.range 9).map (macdSlice xs)).sum / 9

/-- Signal value at slice index `8 + k` (global index `33 + k`). -/
def signalFrom (xs : List ℚ) : Nat → ℚ
  | 0 => signalSeed xs
  | k + 1 => (2 / 10) * macdSlice xs (9 + k) + (1 - 2 / 10) * signalFrom xs k

/-- The MACD signal cell: NaN before global index 33. -/
def macdSignalCell (xs : List ℚ) (i : Nat) : Cell :=
  if i < 33 then Cell.nan else Cell.num (signalFrom xs (i - 33))

/-- The MACD histogram cell: line minus signal, NaN before index 33. -/
def macdHistCell (xs : List ℚ) (i : Nat) : Cell :=
  if i < 33 then Cell.nan
  else Cell.num (macdSlice xs (i - 25) - signalFrom xs (i - 33))

/-- The three columns produced by a successful `ta.macd(close, 12, 26, 9)`. -/
def macdColumns (xs : List ℚ) : List (String × List Cell) :=
  [("MACD_12_26_9", (List.range xs.length).map (macdLineCell xs)),
   ("MACDh_12_26_9", (List.range xs.length).map (macdHistCell xs)),
   ("MACDs_12_26_9", (List.range xs.length).map (macdSignalCell xs))]

/-- `ta.macd(close, 12, 26, 9)` as a pipeline step.  `none` models the
exception raised at this step: below 26 rows `verify_series` makes `ta.macd`
return `None` and `df.join(None)` raises; for 26–33 rows the signal EMA gets
a sub-series shorter than 9, returns `None`, and `macd - None` raises inside
`ta.macd`. -/
def macdCols (xs : List ℚ) : Option (List (String × List Cell)) :=
  if xs.length < 26 then none
  else if xs.length < 34 then none
  else some (macdColumns xs)

/-- Rolling sample variance (`ddof = 1`) of the 20-window ending at `i`. -/
def windowVar (xs : List ℚ) (i n : Nat) : ℚ :=
  (((List.range n).map (fun k => (nthQ xs (i + 1 - n + k) - windowMean xs i n) ^ 2)).sum) /
    ((n : ℚ) - 1)

/-- Bollinger standard deviation at index `i`, via the supplied float sqrt. -/
def bbStd (sqrtA : ℚ → ℚ) (xs : List ℚ) (i : Nat) : ℚ := sqrtA (windowVar xs i 20)

/-- Lower Bollinger band cell (`mid - 2σ`), NaN before index 19. -/
def bbLowerCell (sqrtA : ℚ → ℚ) (xs : List ℚ) (i : Nat) : Cell :=
  if i + 1 < 20 then Cell.nan
  else Cell.num (windowMean xs i 20 - 2 * bbStd sqrtA xs i)

/-- Middle Bollinger band cell (`sma(close, 20)`), NaN before index 19. -/
def bbMidCell (xs : List ℚ) (i : Nat) : Cell :=
  if i + 1 < 20 then Cell.nan else Cell.num (windowMean xs i 20)

/-- Upper Bollinger band cell (`mid + 2σ`), NaN before index 19. -/
def bbUpperCell (sqrtA : ℚ → ℚ) (xs : List ℚ) (i : Nat) : Cell :=
  if i + 1 < 20 then Cell.nan
  else Cell.num (windowMean xs i 20 + 2 * bbStd sqrtA xs i)

/-- Bollinger bandwidth cell: `100 * (upper - lower) / mid`. -/
def bbBandwidthCell (sqrtA : ℚ → ℚ) (xs : List ℚ) (i : Nat) : Cell :=
  if i + 1 < 20 then Cell.nan
  else Cell.num (100 * (4 * bbStd sqrtA xs i) / windowMean xs i 20)

/-- Bollinger percent cell: `(close - lower) / (upper - lower)`. -/
def bbPercentCell (sqrtA : ℚ → ℚ) (xs : List ℚ) (i : Nat) : Cell :=
  if i + 1 < 20 then Cell.nan
  else Cell.num ((nthQ xs i - (windowMean xs i 20 - 2 * bbStd sqrtA xs i)) /
    (4 * bbStd sqrtA xs i))

/-- The five columns produced by `ta.bbands(close, length=20, std=2)`. -/
def bbColumns (sqrtA : ℚ → ℚ) (xs : List ℚ) : List (String × List Cell) :=
  [("BBL_20_2.0", (List.range xs.length).map (bbLowerCell sqrtA xs)),
   ("BBM_20_2.0", (List.range xs.length).map (bbMidCell xs)),
   ("BBU_20_2.0", (List.range xs.length).map (bbUpperCell sqrtA xs)),
   ("BBB_20_2.0", (List.range xs.length).map (bbBandwidthCell sqrtA xs)),
   ("BBP_20_2.0", (List.range xs.length).map (bbPercentCell sqrtA xs))]

/-- `ta.bbands(close, length=20, std=2)`.  `none` models the exception of
this step: below 20 rows `ta.bbands` returns `None` and joining raises. -/
def bbandsCols (sqrtA : ℚ → ℚ) (xs : List ℚ) : Option (List (String × List Cell)) :=
  if xs.length < 20 then none else some (bbColumns sqrtA xs)

/-- Fallback bar for out-of-range positional access. -/
def defaultBar : Bar := { ts := ⟨0, 0, 0, 0, 0⟩, open_ := 0, high := 0, low := 0, close := 0, volume := 0 }

/-- True range at index `i ≥ 1` (index 0 is NaN in `ta.true_range`). -/
def trAt (rows : List Bar) (i : Nat) : ℚ :=
  let b := rows.getD i defaultBar
  let pc := (rows.getD (i - 1) defaultBar).close
  max (abs (b.high - b.low)) (max (abs (b.high - pc)) (abs (pc - b.low)))

/-- The `atr` cell at index `i`: Wilder smoothing (`rma`) of the true range,
NaN until 14 true-range observations have been seen. -/
def atrCell (rows : List Bar) (i : Nat) : Cell :=
  if i < 14 then Cell.nan
  else Cell.num (wilderNum (trAt rows) (1 / 14) i / wilderDen (1 / 14) i)

/-- `ta.atr(high, low, close, length=14)`: `None` below 14 rows. -/
def atrCol (rows : List Bar) : List Cell :=
  if rows.length < 14 then List.replicate rows.length Cell.nan
  else (List.range rows.length).map (atrCell rows)

/-- `df['daily_return'] = df['close'].pct_change() * 100`. -/
def dailyReturnCol (xs : List ℚ) : List Cell :=
  (List.range xs.length).map (fun i =>
    if i = 0 then Cell.nan else Cell.num ((nthQ xs i / nthQ xs (i - 1) - 1) * 100))

/-- `df['volume'] > df['volume_sma_20']`: a pandas float comparison, which is
`False` (not NaN) whenever the right-hand side is NaN. -/
def volAboveCol (rows : List Bar) (smaCells : List Cell) : List Cell :=
  List.zipWith
    (fun (b : Bar) c =>
      match c with
      | Cell.num m => Cell.bool (decide (m < b.volume))
      | _ => Cell.bool false)
    rows smaCells

/-- Result of `add_technical_indicators`.  `caller` is the DataFrame object
the caller passed in, after the call: the `df['rsi'] = ...` assignment
mutates it in place, while every later step operates on the fresh frame
created by `df = df.join(bbands)`.  `result` is the returned frame.
`raised` records whether the `except` branch ran. -/
structure EnrichResult where
  caller : Table
  result : Table
  raised : Bool
deriving DecidableEq, Repr

/-- `add_technical_indicators(df)` (src/app.py lines 53–97).  The statements
run in source order; a step whose pandas counterpart raises makes the
`except` branch return the table built so far. -/
def add_technical_indicators (sqrtA : ℚ → ℚ) (df : Table) : EnrichResult :=
  let closes := df.rows.map (fun b => b.close)
  let vols := df.rows.map (fun b => b.volume)
  let t0 := setCol df "rsi" (rsiCol closes)
  match bbandsCols sqrtA closes with
  | none => { caller := t0, result := t0, raised := true }
  | some bb =>
    let t1 := joinCols t0 bb
    match macdCols closes with
    | none => { caller := t0, result := t1, raised := true }
    | some mc =>
      let t2 := joinCols t1 mc
      let t3 := setCol t2 "sma_20" (smaCol 20 closes)
      let t4 := setCol t3 "sma_50" (smaCol 50 closes)
      let t5 := setCol t4 "sma_200" (smaCol 200 closes)
      let t6 := setCol t5 "ema_12" (emaCol 12 closes)
      let t7 := setCol t6 "ema_26" (emaCol 26 closes)
      let t8 := setCol t7 "atr" (atrCol df.rows)
      let t9 := setCol t8 "date" (df.rows.map (fun b => Cell.date b.ts.year b.ts.month b.ts.day))
      let t10 := setCol t9 "year" (df.rows.map (fun b => Cell.num (b.ts.year : ℚ)))
      let t11 := setCol t10 "month" (df.rows.map (fun b => Cell.num (b.ts.month : ℚ)))
      let t12 := setCol t11 "day" (df.rows.map (fun b => Cell.num (b.ts.day : ℚ)))
      let t13 := setCol t12 "day_of_week" (df.rows.map (fun b => Cell.num (b.ts.dayOfWeek : ℚ)))
      let t14 := setCol t13 "daily_return" (dailyReturnCol closes)
      let t15 := setCol t14 "volume_sma_20" (smaCol 20 vols)
      let t16 := setCol t15 "volume_above_avg" (volAboveCol df.rows (smaCol 20 vols))
      { caller := t0, result := t16, raised := false }

/-- The DataFrame `fetch_data` stores for a symbol: the fetched bars with
lowercased column names plus the added `symbol` column. -/
def mkFetched (s : String) (bars : List Bar) : Table :=
  { rows := bars, cols := [("symbol", bars.map (fun _ => Cell.str s))] }

/-- `fetch_data(symbols, ...)` (src/app.py lines 15–51), parameterised by the
fetch collaborator: `none` is a fetch that raises, `some bars` a successful
fetch.  A raising fetch and an empty result are both skipped. -/
def fetch_data (fetch : String → Option (List Bar)) (symbols : List String) :
    List (String × Table) :=
  symbols.filterMap (fun s =>
    match fetch s with
    | none => none
    | some bars => if bars.isEmpty then none else some (s, mkFetched s bars))

/-- Errors of the summary computation: the zero-row guard, and a division
whose denominator is zero (no guard exists for it in the source). -/
inductive SummErr where
  | emptySeries
  | divByZero
deriving DecidableEq, Repr

/-- Division, with the zero denominator made observable. -/
def qdivE (a b : ℚ) : Except SummErr ℚ :=
  if b = 0 then Except.error SummErr.divByZero else Except.ok (a / b)

/-- One row of `stock_summary.csv`, fields as in src/app.py lines 154–164. -/
structure SummaryRow where
  symbol : String
  last_price : ℚ
  daily_change_pct : ℚ
  volume : ℚ
  week_52_high : ℚ
  week_52_low : ℚ
  pct_from_high : ℚ
  pct_from_low : ℚ
  date : Int × Int × Int
deriving DecidableEq, Repr

/-- Maximum of a list of rationals (`df['close'].max()`, list nonempty). -/
def listMax : List ℚ → ℚ
  | [] => 0
  | x :: xs => xs.foldl max x

/-- Minimum of a list of rationals (`df['close'].min()`). -/
def listMin : List ℚ → ℚ
  | [] => 0
  | x :: xs => xs.foldl min x

/-- `df.iloc[-2]['close']` (meaningful when the table has ≥ 2 rows). -/
def penultClose (t : Table) : ℚ :=
  nthQ (t.rows.map (fun b => b.close)) (t.rows.length - 2)

/-- `df.iloc[-1]['close']` (0 for an empty table). -/
def lastClose (t : Table) : ℚ :=
  match t.rows.getLast? with
  | some b => b.close
  | none => 0

/-- The `daily_change_pct` expression of src/app.py lines 142–144. -/
def dailyChangeE (latest : Bar) (t : Table) : Except SummErr ℚ :=
  if 1 < t.rows.length then
    match qdivE (latest.close - penultClose t) (penultClose t) with
    | Except.ok q => Except.ok (q * 100)
    | Except.error e => Except.error e
  else Except.ok 0

/-- The loop body of `create_summary_table` for one symbol (src/app.py lines
136–164): the zero-row guard, then last price, daily change, period extrema
and percent-from-extrema, computed in statement order. -/
def summarize (symbol : String) (t : Table) : Except SummErr SummaryRow :=
  match t.rows.getLast? with
  | none => Except.error SummErr.emptySeries
  | some latest =>
    let closes := t.rows.map (fun b => b.close)
    let hi := listMax closes
    let lo := listMin closes
    match dailyChangeE latest t with
    | Except.error e => Except.error e
    | Except.ok dc =>
      match qdivE (latest.close - hi) hi with
      | Except.error e => Except.error e
      | Except.ok ph =>
        match qdivE (latest.close - lo) lo with
        | Except.error e => Except.error e
        | Except.ok pl =>
            Except.ok
              { symbol := symbol
                last_price := latest.close
                daily_change_pct := dc
                volume := latest.volume
                week_52_high := hi
                week_52_low := lo
                pct_from_high := ph * 100
                pct_from_low := pl * 100
                date := (latest.ts.year, latest.ts.month, latest.ts.day) }

/-- `create_summary_table(stock_data, ...)`: one row per symbol whose table
passes the guards, in iteration order. -/
def create_summary_table (stockData : List (String × Table)) : List SummaryRow :=
  stockData.filterMap (fun p => (summarize p.1 p.2).toOption)

/-- The empty DataFrame `pd.DataFrame()`. -/
def emptyTable : Table := { rows := [], cols := [] }

/-- Column of a table padded with NaN when absent (how `pd.concat` fills
columns missing from one operand). -/
def getColD (t : Table) (name : String) : List Cell :=
  (getCol t name).getD (List.replicate t.rows.length Cell.nan)

/-- `pd.concat([a, b])`: concatenation with the empty frame gives the other
frame back; otherwise rows are appended and columns unioned in order, a
column missing on one side padded with NaN. -/
def appendTable (a b : Table) : Table :=
  if a.rows = [] ∧ a.cols = [] then b
  else
    let names := a.colNames ++ b.colNames.filter (fun n => !(a.colNames.contains n))
    { rows := a.rows ++ b.rows
      cols := names.map (fun n => (n, getColD a n ++ getColD b n)) }

/-- The combined table accumulated by the per-symbol loop, starting from
`pd.DataFrame()`. -/
def concatTables (ts : List Table) : Table := ts.foldl appendTable emptyTable

/-- What `process_all_stocks` produces: the per-symbol enriched tables, the
combined table, and the summary rows. -/
structure BatchResult where
  perSymbol : List (String × Table)
  combined : Table
  summary : List SummaryRow
deriving DecidableEq, Repr

/-- `process_all_stocks(symbols, ...)` (src/app.py lines 99–130).  The
summary is computed from `stock_data`, i.e. from the caller-side tables
(which `add_technical_indicators` has mutated in place). -/
def process_all_stocks (sqrtA : ℚ → ℚ) (fetch : String → Option (List Bar))
    (symbols : List String) : BatchResult :=
  let stockData := fetch_data fetch symbols
  let processed := stockData.map (fun p => (p.1, add_technical_indicators sqrtA p.2))
  { perSymbol := processed.map (fun p => (p.1, p.2.result))
    combined := concatTables (processed.map (fun p => p.2.result))
    summary := create_summary_table (processed.map (fun p => (p.1, p.2.caller))) }

/-! ### Helper lemmas about the table operations -/

instance {ε α : Type} [DecidableEq ε] [DecidableEq α] : DecidableEq (Except ε α) :=
  fun a b =>
    match a, b with
    | Except.error x, Except.error y =>
        if h : x = y then Decidable.isTrue (by rw [h])
        else Decidable.isFalse (fun hc => h (by cases hc; rfl))
    | Except.error _, Except.ok _ => Decidable.isFalse (fun hc => Except.noConfusion hc)
    | Except.ok _, Except.error _ => Decidable.isFalse (fun hc => Except.noConfusion hc)
    | Except.ok x, Except.ok y =>
        if h : x = y then Decidable.isTrue (by rw [h])
        else Decidable.isFalse (fun hc => h (by cases hc; rfl))

@[simp] theorem rows_setCol (t : Table) (n : String) (c : List Cell) :
    (setCol t n c).rows = t.rows := by
  unfold setCol; split <;> rfl

@[simp] theorem rows_joinCols (t : Table) (cs : List (String × List Cell)) :
    (joinCols t cs).rows = t.rows := rfl

theorem find?_mapReplace_self (cols : List (String × List Cell)) (n : String)
    (c : List Cell) (h : (cols.map (fun p => p.1)).contains n = true) :
    (cols.map (fun p => if p.1 = n then (n, c) else p)).find? (fun p => p.1 = n) =
      some (n, c) := by
  induction cols with
  | nil => simp at h
  | cons p ps ih =>
      by_cases hp : p.1 = n
      · simp only [List.map_cons, if_pos hp]
        exact List.find?_cons_of_pos _ (by simp)
      · simp only [List.map_cons, List.contains_cons] at h
        have hne : (n == p.1) = false := by
          simp only [beq_eq_false_iff_ne, ne_eq]
          exact fun he => hp he.symm
        rw [hne] at h
        simp only [Bool.false_or] at h
        simp only [List.map_cons, if_neg hp]
        rw [List.find?_cons_of_neg _ (by simp [hp])]
        exact ih h

theorem find?_append_single (cols : List (String × List Cell)) (n : String)
    (c : List Cell) (h : (cols.map (fun p => p.1)).contains n = false) :
    (cols ++ [(n, c)]).find? (fun p => p.1 = n) = some (n, c) := by
  induction cols with
  | nil => exact List.find?_cons_of_pos _ (by simp)
  | cons p ps ih =>
      simp only [List.map_cons, List.contains_cons, Bool.or_eq_false_iff] at h
      have hp : ¬ (p.1 = n) := by
        intro he
        have := h.1
        rw [he] at this
        simp at this
      rw [List.cons_append, List.find?_cons_of_neg _ (by simp [hp])]
      exact ih h.2

theorem getCol_setCol_self (t : Table) (n : String) (c : List Cell) :
    getCol (setCol t n c) n = some c := by
  unfold setCol getCol Table.colNames
  split
  · rename_i h
    simp [find?_mapReplace_self t.cols n c h]
  · rename_i h
    simp [find?_append_single t.cols n c (Bool.not_eq_true _ ▸ Bool.of_not_eq_true h)]

theorem find?_mapReplace_ne (cols : List (String × List Cell)) {n m : String}
    (h : n ≠ m) (c : List Cell) :
    (cols.map (fun p => if p.1 = m then (m, c) else p)).find? (fun p => p.1 = n) =
      cols.find? (fun p => p.1 = n) := by
  induction cols with
  | nil => rfl
  | cons p ps ih =>
      by_cases hp : p.1 = m
      · have hpn : ¬ (p.1 = n) := by rw [hp]; exact fun he => h he.symm
        simp only [List.map_cons, if_pos hp]
        rw [List.find?_cons_of_neg _ (by simp; exact fun he => h he.symm),
          List.find?_cons_of_neg _ (by simp [hpn])]
        exact ih
      · simp only [List.map_cons, if_neg hp]
        by_cases hpn : p.1 = n
        · rw [List.find?_cons_of_pos _ (by simp [hpn]),
            List.find?_cons_of_pos _ (by simp [hpn])]
        · rw [List.find?_cons_of_neg _ (by simp [hpn]),
            List.find?_cons_of_neg _ (by simp [hpn])]
          exact ih

theorem getCol_setCol_ne (t : Table) {n m : String} (h : n ≠ m) (c : List Cell) :
    getCol (setCol t m c) n = getCol t n := by
  unfold setCol getCol Table.colNames
  split
  · simp [find?_mapReplace_ne t.cols h c]
  · rw [List.find?_append]
    rcases ho : t.cols.find? (fun p => p.1 = n) with _ | q
    · simp [List.find?_cons, Ne.symm h]
    · rw [ho]
      rfl

theorem getCol_joinCols_of_isSome (t : Table) {n : String} {c : List Cell}
    (h : getCol t n = some c) (cs : List (String × List Cell)) :
    getCol (joinCols t cs) n = some c := by
  unfold getCol at h ⊢
  unfold joinCols
  rcases ho : t.cols.find? (fun p => p.1 = n) with _ | p
  · rw [ho] at h; cases h
  · rw [ho] at h
    simp only [List.find?_append, ho, Option.or_some]
    exact h

theorem bbandsCols_eq_none (sqrtA : ℚ → ℚ) (xs : List ℚ) (h : xs.length < 20) :
    bbandsCols sqrtA xs = none := by
  simp [bbandsCols, h]

theorem bbandsCols_eq_some (sqrtA : ℚ → ℚ) (xs : List ℚ) (h : 20 ≤ xs.length) :
    bbandsCols sqrtA xs = some (bbColumns sqrtA xs) := by
  simp [bbandsCols, Nat.not_lt.mpr h]

theorem macdCols_eq_none (xs : List ℚ) (h : xs.length < 34) : macdCols xs = none := by
  unfold macdCols
  by_cases h26 : xs.length < 26
  · simp [h26]
  · simp [h26, h]

theorem macdCols_eq_some (xs : List ℚ) (h : 34 ≤ xs.length) :
    macdCols xs = some (macdColumns xs) := by
  unfold macdCols
  rw [if_neg (by omega), if_neg (by omega)]

/-- The fully enriched table, i.e. the frame returned when no indicator step
raises (34 or more rows): the same statement chain as in
`add_technical_indicators`. -/
def fullEnrichTable (sqrtA : ℚ → ℚ) (df : Table) : Table :=
  let closes := df.rows.map (fun b => b.close)
  let vols := df.rows.map (fun b => b.volume)
  let t0 := setCol df "rsi" (rsiCol closes)
  let t1 := joinCols t0 (bbColumns sqrtA closes)
  let t2 := joinCols t1 (macdColumns closes)
  let t3 := setCol t2 "sma_20" (smaCol 20 closes)
  let t4 := setCol t3 "sma_50" (smaCol 50 closes)
  let t5 := setCol t4 "sma_200" (smaCol 200 closes)
  let t6 := setCol t5 "ema_12" (emaCol 12 closes)
  let t7 := setCol t6 "ema_26" (emaCol 26 closes)
  let t8 := setCol t7 "atr" (atrCol df.rows)
  let t9 := setCol t8 "date" (df.rows.map (fun b => Cell.date b.ts.year b.ts.month b.ts.day))
  let t10 := setCol t9 "year" (df.rows.map (fun b => Cell.num (b.ts.year : ℚ)))
  let t11 := setCol t10 "month" (df.rows.map (fun b => Cell.num (b.ts.month : ℚ)))
  let t12 := setCol t11 "day" (df.rows.map (fun b => Cell.num (b.ts.day : ℚ)))
  let t13 := setCol t12 "day_of_week" (df.rows.map (fun b => Cell.num (b.ts.dayOfWeek : ℚ)))
  let t14 := setCol t13 "daily_return" (dailyReturnCol closes)
  let t15 := setCol t14 "volume_sma_20" (smaCol 20 vols)
  setCol t15 "volume_above_avg" (volAboveCol df.rows (smaCol 20 vols))

theorem enrich_lt20 (sqrtA : ℚ → ℚ) (t : Table) (h : t.rows.length < 20) :
    add_technical_indicators sqrtA t =
      { caller := setCol t "rsi" (rsiCol (t.rows.map (fun b => b.close)))
        result := setCol t "rsi" (rsiCol (t.rows.map (fun b => b.close)))
        raised := true } := by
  have hl : (t.rows.map (fun b => b.close)).length < 20 := by simpa using h
  simp [add_technical_indicators, bbandsCols_eq_none sqrtA _ hl]

theorem enrich_mid (sqrtA : ℚ → ℚ) (t : Table) (h20 : 20 ≤ t.rows.length)
    (h34 : t.rows.length < 34) :
    add_technical_indicators sqrtA t =
      { caller := setCol t "rsi" (rsiCol (t.rows.map (fun b => b.close)))
        result := joinCols (setCol t "rsi" (rsiCol (t.rows.map (fun b => b.close))))
          (bbColumns sqrtA (t.rows.map (fun b => b.close)))
        raised := true } := by
  have hl20 : 20 ≤ (t.rows.map (fun b => b.close)).length := by simpa using h20
  have hl34 : (t.rows.map (fun b => b.close)).length < 34 := by simpa using h34
  simp [add_technical_indicators, bbandsCols_eq_some sqrtA _ hl20, macdCols_eq_none _ hl34]

theorem enrich_ge34 (sqrtA : ℚ → ℚ) (t : Table) (h : 34 ≤ t.rows.length) :
    add_technical_indicators sqrtA t =
      { caller := setCol t "rsi" (rsiCol (t.rows.map (fun b => b.close)))
        result := fullEnrichTable sqrtA t
        raised := false } := by
  have hl20 : 20 ≤ (t.rows.map (fun b => b.close)).length := by simp; omega
  have hl34 : 34 ≤ (t.rows.map (fun b => b.close)).length := by simpa using h
  simp [add_technical_indicators, fullEnrichTable, bbandsCols_eq_some sqrtA _ hl20,
    macdCols_eq_some _ hl34]

theorem enrich_caller (sqrtA : ℚ → ℚ) (t : Table) :
    (add_technical_indicators sqrtA t).caller =
      setCol t "rsi" (rsiCol (t.rows.map (fun b => b.close))) := by
  rcases Nat.lt_or_ge t.rows.length 20 with h | h20
  · rw [enrich_lt20 sqrtA t h]
  · rcases Nat.lt_or_ge t.rows.length 34 with h34 | h34
    · rw [enrich_mid sqrtA t h20 h34]
    · rw [enrich_ge34 sqrtA t h34]

theorem rows_fullEnrichTable (sqrtA : ℚ → ℚ) (t : Table) :
    (fullEnrichTable sqrtA t).rows = t.rows := by
  simp [fullEnrichTable]

theorem enrich_result_rows (sqrtA : ℚ → ℚ) (t : Table) :
    (add_technical_indicators sqrtA t).result.rows = t.rows := by
  rcases Nat.lt_or_ge t.rows.length 20 with h | h20
  · rw [enrich_lt20 sqrtA t h]; simp
  · rcases Nat.lt_or_ge t.rows.length 34 with h34 | h34
    · rw [enrich_mid sqrtA t h20 h34]; simp
    · rw [enrich_ge34 sqrtA t h34]; simp [rows_fullEnrichTable]

theorem enrich_raised_iff (sqrtA : ℚ → ℚ) (t : Table) :
    (add_technical_indicators sqrtA t).raised = true ↔ t.rows.length < 34 := by
  rcases Nat.lt_or_ge t.rows.length 20 with h | h20
  · rw [enrich_lt20 sqrtA t h]
    simpa using by omega
  · rcases Nat.lt_or_ge t.rows.length 34 with h34 | h34
    · rw [enrich_mid sqrtA t h20 h34]
      simpa using h34
    · rw [enrich_ge34 sqrtA t h34]
      simpa using by omega

theorem wilderDen_nonneg (i : Nat) : 0 ≤ wilderDen (1 / 14) i := by
  induction i with
  | zero => simp [wilderDen]
  | succ i ih =>
      simp only [wilderDen]
      nlinarith

theorem wilderDen_pos (i : Nat) (h : 0 < i) : 0 < wilderDen (1 / 14) i := by
  cases i with
  | zero => exact absurd h (by omega)
  | succ i =>
      have := wilderDen_nonneg i
      simp only [wilderDen]
      nlinarith

theorem wilderNum_nonneg (x : Nat → ℚ) (hx : ∀ j, 0 ≤ x j) (i : Nat) :
    0 ≤ wilderNum x (1 / 14) i := by
  induction i with
  | zero => simp [wilderNum]
  | succ i ih =>
      simp only [wilderNum]
      have := hx (i + 1)
      nlinarith

theorem wilderNum_pos (x : Nat → ℚ) (hx : ∀ j, 0 ≤ x j) :
    ∀ i j, 1 ≤ j → j ≤ i → 0 < x j → 0 < wilderNum x (1 / 14) i := by
  intro i
  induction i with
  | zero => intro j h1 h0 _; omega
  | succ i ih =>
      intro j h1 hji hxj
      simp only [wilderNum]
      rcases Nat.lt_or_ge j (i + 1) with hj | hj
      · have hpos := ih j h1 (by omega) hxj
        have := hx (i + 1)
        nlinarith
      · have hji1 : j = i + 1 := by omega
        have := wilderNum_nonneg x hx i
        rw [hji1] at hxj
        nlinarith

theorem wilderNum_add (x y : Nat → ℚ) (α : ℚ) (i : Nat) :
    wilderNum x α i + wilderNum y α i = wilderNum (fun j => x j + y j) α i := by
  induction i with
  | zero => simp [wilderNum]
  | succ i ih =>
      simp only [wilderNum]
      rw [← ih]
      ring

theorem gainAt_add_lossAt (xs : List ℚ) (j : Nat) :
    gainAt xs j + lossAt xs j = |delta xs j| := by
  unfold gainAt lossAt
  exact max_zero_add_max_neg_zero_eq_abs_self (a := delta xs j)

/-- When some price change occurs among indices `1..14`, the RSI cell at
index 14 holds a number (the `0/0` NaN case is ruled out). -/
theorem rsiCell_14_num (xs : List ℚ)
    (hnd : ∃ j, 1 ≤ j ∧ j ≤ 14 ∧ delta xs j ≠ 0) :
    ∃ q, rsiCell xs 14 = Cell.num q := by
  obtain ⟨j, h1, h14, hd⟩ := hnd
  have hden : 0 < wilderDen (1 / 14) 14 := wilderDen_pos 14 (by omega)
  have hxnn : ∀ k, 0 ≤ gainAt xs k + lossAt xs k := by
    intro k
    rw [gainAt_add_lossAt]
    exact abs_nonneg _
  have hxj : 0 < gainAt xs j + lossAt xs j := by
    rw [gainAt_add_lossAt]
    exact abs_pos.mpr hd
  have hsum : 0 < wilderNum (gainAt xs) (1 / 14) 14 + wilderNum (lossAt xs) (1 / 14) 14 := by
    rw [wilderNum_add]
    exact wilderNum_pos _ hxnn 14 j h1 h14 hxj
  have havg : 0 < rsiAvgGain xs 14 + rsiAvgLoss xs 14 := by
    unfold rsiAvgGain rsiAvgLoss
    rw [div_add_div_same]
    exact div_pos hsum hden
  refine ⟨100 * rsiAvgGain xs 14 / (rsiAvgGain xs 14 + rsiAvgLoss xs 14), ?_⟩
  unfold rsiCell
  rw [if_neg (by omega), if_neg (ne_of_gt havg)]

theorem getCol_fullEnrich_vaa (sqrtA : ℚ → ℚ) (t : Table) :
    getCol (fullEnrichTable sqrtA t) "volume_above_avg" =
      some (volAboveCol t.rows (smaCol 20 (t.rows.map (fun b => b.volume)))) := by
  simp only [fullEnrichTable]
  exact getCol_setCol_self _ _ _

theorem getCol_fullEnrich_vsma (sqrtA : ℚ → ℚ) (t : Table) :
    getCol (fullEnrichTable sqrtA t) "volume_sma_20" =
      some (smaCol 20 (t.rows.map (fun b => b.volume))) := by
  simp only [fullEnrichTable]
  rw [getCol_setCol_ne _ (by decide : ("volume_sma_20" : String) ≠ "volume_above_avg") _]
  exact getCol_setCol_self _ _ _

theorem getCol_fullEnrich_rsi (sqrtA : ℚ → ℚ) (t : Table) :
    getCol (fullEnrichTable sqrtA t) "rsi" =
      some (rsiCol (t.rows.map (fun b => b.close))) := by
  simp only [fullEnrichTable]
  rw [getCol_setCol_ne _ (by decide : ("rsi" : String) ≠ "volume_above_avg") _,
    getCol_setCol_ne _ (by decide : ("rsi" : String) ≠ "volume_sma_20") _,
    getCol_setCol_ne _ (by decide : ("rsi" : String) ≠ "daily_return") _,
    getCol_setCol_ne _ (by decide : ("rsi" : String) ≠ "day_of_week") _,
    getCol_setCol_ne _ (by decide : ("rsi" : String) ≠ "day") _,
    getCol_setCol_ne _ (by decide : ("rsi" : String) ≠ "month") _,
    getCol_setCol_ne _ (by decide : ("rsi" : String) ≠ "year") _,
    getCol_setCol_ne _ (by decide : ("rsi" : String) ≠ "date") _,
    getCol_setCol_ne _ (by decide : ("rsi" : String) ≠ "atr") _,
    getCol_setCol_ne _ (by decide : ("rsi" : String) ≠ "ema_26") _,
    getCol_setCol_ne _ (by decide : ("rsi" : String) ≠ "ema_12") _,
    getCol_setCol_ne _ (by decide : ("rsi" : String) ≠ "sma_200") _,
    getCol_setCol_ne _ (by decide : ("rsi" : String) ≠ "sma_50") _,
    getCol_setCol_ne _ (by decide : ("rsi" : String) ≠ "sma_20") _]
  exact getCol_joinCols_of_isSome _
    (getCol_joinCols_of_isSome _ (getCol_setCol_self _ _ _) _) _

set_option maxHeartbeats 1000000 in
/-- The returned table always carries the `rsi` column computed by the first
pipeline statement, whichever branch was taken. -/
theorem getCol_result_rsi (sqrtA : ℚ → ℚ) (t : Table) :
    getCol (add_technical_indicators sqrtA t).result "rsi" =
      some (rsiCol (t.rows.map (fun b => b.close))) := by
  rcases Nat.lt_or_ge t.rows.length 20 with h | h20
  · rw [enrich_lt20 sqrtA t h]
    exact getCol_setCol_self _ _ _
  · rcases Nat.lt_or_ge t.rows.length 34 with h34 | h34
    · rw [enrich_mid sqrtA t h20 h34]
      exact getCol_joinCols_of_isSome _ (getCol_setCol_self _ _ _) _
    · simp only [enrich_ge34 sqrtA t h34]
      exact getCol_fullEnrich_rsi sqrtA t

theorem setCol_ne_self (t : Table) (n : String) (c : List Cell)
    (h : t.colNames.contains n = false) : setCol t n c ≠ t := by
  unfold setCol
  rw [h]
  intro he
  have hc := congrArg (fun x => x.cols.length) he
  simp at hc

theorem get?_zipWithBC (f : Bar → Cell → Cell) :
    ∀ (as : List Bar) (bs : List Cell) (i : Nat),
      (List.zipWith f as bs).get? i =
        match as.get? i, bs.get? i with
        | some a, some b => some (f a b)
        | _, _ => none := by
  intro as
  induction as with
  | nil => intro bs i; cases bs <;> cases i <;> rfl
  | cons a as ih =>
      intro bs i
      cases bs with
      | nil =>
          cases i with
          | zero => rfl
          | succ n => rcases hx : (a :: as).get? (n + 1) with _ | x <;> rfl
      | cons b bs => cases i with
        | zero => rfl
        | succ i => simpa using ih bs i

theorem rsiCol_get? (xs : List ℚ) (h14 : 14 ≤ xs.length) (i : Nat)
    (hi : i < xs.length) : (rsiCol xs).get? i = some (rsiCell xs i) := by
  unfold rsiCol
  rw [if_neg (by omega), List.get?_map, List.get?_range hi]
  rfl

theorem smaCol_get? (n : Nat) (xs : List ℚ) (h : n ≤ xs.length) (i : Nat)
    (hi : i < xs.length) : (smaCol n xs).get? i = some (smaCell n xs i) := by
  unfold smaCol
  rw [if_neg (by omega), List.get?_map, List.get?_range hi]
  rfl

/-- Sample bar `i`: strictly increasing timestamps and closes, volume 1. -/
def sampleBar (i : Nat) : Bar :=
  { ts := ⟨i, 2024, 1, (i : Int) + 1, ((i % 7 : Nat) : Int)⟩
    open_ := (i : ℚ) + 1, high := (i : ℚ) + 2, low := (i : ℚ)
    close := (i : ℚ) + 1, volume := 1 }

def table1 : Table := mkFetched "AAA" [sampleBar 0]

def table15 : Table := mkFetched "AAA" ((List.range 15).map sampleBar)

def table34 : Table := mkFetched "AAA" ((List.range 34).map sampleBar)

/-! ### C1 — atomicity of `add_technical_indicators` on error -/

/-- C1 (counterexample): on a one-row table an exception does occur inside
the indicator pipeline (`raised = true`), yet the returned table is not the
original input: the in-place `df['rsi'] = ...` assignment survives the
`except` branch, so the result has an `rsi` column the input lacked. -/
theorem c1_counterexample :
    (add_technical_indicators id table1).raised = true ∧
    (add_technical_indicators id table1).result ≠ table1 := by
  have h1 : table1.rows.length < 20 := by decide
  constructor
  · exact (enrich_raised_iff id table1).mpr (by decide)
  · rw [enrich_lt20 id table1 h1]
    exact setCol_ne_self table1 "rsi" _ (by decide)

/-- C1 (amended): an exception occurs in the pipeline exactly when the input
has fewer than 34 rows, and in that case the engine returns the input rows
with the columns added before the failing step — the `rsi` column always
(fewer than 20 rows: Bollinger join fails), and additionally the five
Bollinger columns for 20–33 rows (MACD step fails) — not the unmodified
original table. -/
theorem c1_amended_error_branch (sqrtA : ℚ → ℚ) (t : Table) :
    ((add_technical_indicators sqrtA t).raised = true ↔ t.rows.length < 34) ∧
    (t.rows.length < 20 →
      (add_technical_indicators sqrtA t).result =
        setCol t "rsi" (rsiCol (t.rows.map (fun b => b.close)))) ∧
    (20 ≤ t.rows.length → t.rows.length < 34 →
      (add_technical_indicators sqrtA t).result =
        joinCols (setCol t "rsi" (rsiCol (t.rows.map (fun b => b.close))))
          (bbColumns sqrtA (t.rows.map (fun b => b.close)))) := by
  refine ⟨enrich_raised_iff sqrtA t, fun h => ?_, fun h20 h34 => ?_⟩
  · rw [enrich_lt20 sqrtA t h]
  · rw [enrich_mid sqrtA t h20 h34]

/-- C1 (witness): the amended statement applied to the one-row table. -/
theorem c1_witness :
    (add_technical_indicators id table1).result =
      setCol table1 "rsi" (rsiCol (table1.rows.map (fun b => b.close))) :=
  (c1_amended_error_branch id table1).2.1 (by decide)

/-! ### C4 — purity of `add_technical_indicators` -/

/-- C4 (counterexample): the caller's table object is modified by the call —
after `add_technical_indicators` the caller's one-row table is no longer
equal to what was passed in (it gained an `rsi` column in place). -/
theorem c4_counterexample :
    (add_technical_indicators id table1).caller ≠ table1 := by
  rw [enrich_caller id table1]
  exact setCol_ne_self table1 "rsi" _ (by decide)

/-- C4 (amended): the function is not pure: the first statement assigns the
`rsi` column into the caller's table in place, so after the call the
caller's object equals the input with the `rsi` column set, which differs
from the input whenever the input had no `rsi` column; moreover, when the
Bollinger step fails (fewer than 20 rows) the returned table is the caller's
mutated object itself, not a fresh table. -/
theorem c4_amended_in_place_mutation (sqrtA : ℚ → ℚ) (t : Table) :
    (add_technical_indicators sqrtA t).caller =
      setCol t "rsi" (rsiCol (t.rows.map (fun b => b.close))) ∧
    (t.colNames.contains "rsi" = false → (add_technical_indicators sqrtA t).caller ≠ t) ∧
    (t.rows.length < 20 →
      (add_technical_indicators sqrtA t).result = (add_technical_indicators sqrtA t).caller) := by
  refine ⟨enrich_caller sqrtA t, fun h => ?_, fun h => ?_⟩
  · rw [enrich_caller sqrtA t]
    exact setCol_ne_self t "rsi" _ h
  · rw [enrich_lt20 sqrtA t h]

/-- C4 (witness): the amended statement applied to the one-row table. -/
theorem c4_witness :
    (add_technical_indicators id table1).caller ≠ table1 ∧
    (add_technical_indicators id table1).result = (add_technical_indicators id table1).caller :=
  ⟨(c4_amended_in_place_mutation id table1).2.1 (by decide),
    (c4_amended_in_place_mutation id table1).2.2 (by decide)⟩

/-! ### C8 — row count and timestamps preserved -/

/-- C8: for every non-empty, strictly timestamp-ordered input, the table
returned by `add_technical_indicators` has exactly the input's rows, hence
the same row count and the same timestamps in the same order. -/
theorem c8_rows_preserved (sqrtA : ℚ → ℚ) (t : Table) (hne : t.rows ≠ [])
    (hord : List.Chain' (fun a b => a.ts.serial < b.ts.serial) t.rows) :
    (add_technical_indicators sqrtA t).result.rows = t.rows ∧
    (add_technical_indicators sqrtA t).result.rows.length = t.rows.length ∧
    (add_technical_indicators sqrtA t).result.rows.map (fun b => b.ts) =
      t.rows.map (fun b => b.ts) := by
  have h := enrich_result_rows sqrtA t
  exact ⟨h, by rw [h], by rw [h]⟩

/-- C8 (witness): the statement applied to the one-row table. -/
theorem c8_witness :
    (add_technical_indicators id table1).result.rows = table1.rows ∧
    (add_technical_indicators id table1).result.rows.length = table1.rows.length ∧
    (add_technical_indicators id table1).result.rows.map (fun b => b.ts) =
      table1.rows.map (fun b => b.ts) :=
  c8_rows_preserved id table1 (by decide) (List.chain'_singleton _)

/-! ### C3 — RSI definedness boundary -/

theorem rsi_boundary_helper (sqrtA : ℚ → ℚ) (t : Table) (h15 : 15 ≤ t.rows.length) :
    (∀ i, i < 14 →
      getCell (add_technical_indicators sqrtA t).result "rsi" i = some Cell.nan) ∧
    ((∃ j, 1 ≤ j ∧ j ≤ 14 ∧ delta (t.rows.map (fun b => b.close)) j ≠ 0) →
      ∃ q, getCell (add_technical_indicators sqrtA t).result "rsi" 14 =
        some (Cell.num q)) := by
  have hcol := getCol_result_rsi sqrtA t
  have hlen : (t.rows.map (fun b => b.close)).length = t.rows.length := by simp
  have h14 : 14 ≤ (t.rows.map (fun b => b.close)).length := by omega
  constructor
  · intro i hi
    unfold getCell
    rw [hcol]
    simp only [Option.some_bind]
    rw [rsiCol_get? _ h14 i (by omega)]
    unfold rsiCell
    rw [if_pos hi]
  · intro hnd
    obtain ⟨q, hq⟩ := rsiCell_14_num _ hnd
    refine ⟨q, ?_⟩
    unfold getCell
    rw [hcol]
    simp only [Option.some_bind]
    rw [rsiCol_get? _ h14 14 (by omega), hq]

theorem table15_close_get? (i : Nat) (h : i < 15) :
    (table15.rows.map (fun b => b.close)).get? i = some ((sampleBar i).close) := by
  show ((((List.range 15).map sampleBar)).map (fun b => b.close)).get? i = _
  rw [List.get?_map, List.get?_map, List.get?_range h]
  rfl

theorem table15_nondegenerate :
    ∃ j, 1 ≤ j ∧ j ≤ 14 ∧ delta (table15.rows.map (fun b => b.close)) j ≠ 0 := by
  refine ⟨1, le_refl 1, by norm_num, ?_⟩
  unfold delta nthQ
  show ((table15.rows.map (fun b => b.close)).get? 1).getD 0 -
      ((table15.rows.map (fun b => b.close)).get? (1 - 1)).getD 0 ≠ 0
  rw [table15_close_get? 1 (by norm_num), show (1 - 1 : Nat) = 0 from rfl,
    table15_close_get? 0 (by norm_num)]
  simp [sampleBar]

/-- C3 (counterexample): on a concrete 15-row series with strictly
increasing closes, the `rsi` cell of the enriched table at row index 13 is
NaN (undefined), and the first defined cell is at index 14 — so index 13 is
not "the first row with a defined RSI value" as the claim states. -/
theorem c3_counterexample :
    getCell (add_technical_indicators id table15).result "rsi" 13 = some Cell.nan ∧
    (∃ q, getCell (add_technical_indicators id table15).result "rsi" 14 =
      some (Cell.num q)) := by
  have h := rsi_boundary_helper id table15 (by decide)
  exact ⟨h.1 13 (by norm_num), h.2 table15_nondegenerate⟩

/-- C3 (amended): for every input series of length at least 15, the `rsi`
column of the table produced by `add_technical_indicators` is undefined for
the first 14 rows (indices 0–13); and provided some price change among the
first 15 closes is nonzero (otherwise Wilder's `0/0` makes the cell NaN),
row index 14 — not 13 — is the first row holding a defined RSI value. -/
theorem c3_amended_rsi_boundary (sqrtA : ℚ → ℚ) (t : Table)
    (h15 : 15 ≤ t.rows.length)
    (hnd : ∃ j, 1 ≤ j ∧ j ≤ 14 ∧ delta (t.rows.map (fun b => b.close)) j ≠ 0) :
    (∀ i, i < 14 →
      getCell (add_technical_indicators sqrtA t).result "rsi" i = some Cell.nan) ∧
    (∃ q, getCell (add_technical_indicators sqrtA t).result "rsi" 14 =
      some (Cell.num q)) := by
  have h := rsi_boundary_helper sqrtA t h15
  exact ⟨h.1, h.2 hnd⟩

/-- C3 (witness): the amended statement applied to the 15-row table. -/
theorem c3_witness :
    (∀ i, i < 14 →
      getCell (add_technical_indicators id table15).result "rsi" i = some Cell.nan) ∧
    (∃ q, getCell (add_technical_indicators id table15).result "rsi" 14 =
      some (Cell.num q)) :=
  c3_amended_rsi_boundary id table15 (by decide) table15_nondegenerate

/-! ### C2 — the volume_above_avg column -/

/-- C2 (amended): in the fully enriched table (34 or more rows, so that the
pipeline completes and the column exists), `volume_above_avg[i]` is `True`
exactly when `volume[i] > volume_sma_20[i]`, and it is `False` — not
undefined — both when the volume is equal or below the average and when
`volume_sma_20[i]` is NaN (rows 0–18), because the pandas comparison
`df['volume'] > df['volume_sma_20']` yields `False` on NaN. -/
theorem c2_amended_volume_above_avg (sqrtA : ℚ → ℚ) (s : String) (bars : List Bar)
    (i : Nat) (bar : Bar) (h34 : 34 ≤ bars.length) (hb : bars.get? i = some bar) :
    getCell (add_technical_indicators sqrtA (mkFetched s bars)).result
        "volume_above_avg" i =
      some (Cell.bool
        (match getCell (add_technical_indicators sqrtA (mkFetched s bars)).result
            "volume_sma_20" i with
         | some (Cell.num m) => decide (m < bar.volume)
         | _ => false)) := by
  have h34' : 34 ≤ (mkFetched s bars).rows.length := h34
  have hi : i < bars.length := (List.get?_eq_some.mp hb).1
  have hres : (add_technical_indicators sqrtA (mkFetched s bars)).result =
      fullEnrichTable sqrtA (mkFetched s bars) := by
    rw [enrich_ge34 sqrtA _ h34']
  have hvaa := getCol_fullEnrich_vaa sqrtA (mkFetched s bars)
  have hvsma := getCol_fullEnrich_vsma sqrtA (mkFetched s bars)
  have hlenv : ((mkFetched s bars).rows.map (fun b => b.volume)).length = bars.length := by
    simp [mkFetched]
  unfold getCell
  rw [hres, hvaa, hvsma]
  simp only [Option.some_bind]
  unfold volAboveCol
  rw [get?_zipWithBC]
  have hrows : (mkFetched s bars).rows.get? i = some bar := hb
  rw [hrows, smaCol_get? 20 _ (by omega) i (by omega)]
  by_cases hc : i + 1 < 20
  · unfold smaCell
    rw [if_pos hc]
  · unfold smaCell
    rw [if_neg hc]

/-- C2 (counterexample): in the enriched 34-row table, `volume_sma_20` at
row 0 is NaN (window not filled), yet `volume_above_avg` at row 0 is the
boolean `False`, not an undefined cell — refuting "undefined (not false)
for every row where volume_sma_20 is undefined". -/
theorem c2_counterexample :
    getCell (add_technical_indicators id table34).result "volume_sma_20" 0 =
      some Cell.nan ∧
    getCell (add_technical_indicators id table34).result "volume_above_avg" 0 =
      some (Cell.bool false) := by
  have h34 : (34 : Nat) ≤ ((List.range 34).map sampleBar).length := by simp
  have hb : ((List.range 34).map sampleBar).get? 0 = some (sampleBar 0) := by
    rw [List.get?_map, List.get?_range (by norm_num)]
    rfl
  have h34' : 34 ≤ (mkFetched "AAA" ((List.range 34).map sampleBar)).rows.length := h34
  have hres : (add_technical_indicators id table34).result =
      fullEnrichTable id (mkFetched "AAA" ((List.range 34).map sampleBar)) := by
    rw [show table34 = mkFetched "AAA" ((List.range 34).map sampleBar) from rfl,
      enrich_ge34 id _ h34']
  constructor
  · unfold getCell
    rw [hres, getCol_fullEnrich_vsma id _]
    simp only [Option.some_bind]
    rw [smaCol_get? 20 _ (by simpa [mkFetched] using by omega) 0
      (by simpa [mkFetched] using by omega)]
    rfl
  · unfold getCell
    rw [hres, getCol_fullEnrich_vaa id _]
    simp only [Option.some_bind]
    unfold volAboveCol
    rw [get?_zipWithBC]
    have hrows : (mkFetched "AAA" ((List.range 34).map sampleBar)).rows.get? 0 =
        some (sampleBar 0) := hb
    rw [hrows, smaCol_get? 20 _ (by simpa [mkFetched] using by omega) 0
      (by simpa [mkFetched] using by omega)]
    rfl

/-- C2 (witness): the amended statement applied at row 21 of the 34-row
table (a row where the 20-volume window is filled). -/
theorem c2_witness :
    getCell (add_technical_indicators id table34).result "volume_above_avg" 21 =
      some (Cell.bool
        (match getCell (add_technical_indicators id table34).result
            "volume_sma_20" 21 with
         | some (Cell.num m) => decide (m < (sampleBar 21).volume)
         | _ => false)) :=
  c2_amended_volume_above_avg id "AAA" ((List.range 34).map sampleBar) 21
    (sampleBar 21) (by simp)
    (by rw [List.get?_map, List.get?_range (by norm_num)]; rfl)

/-! ### C5 — summary values on a concrete series -/

def c5bar (n : Nat) (d : Int) (c : ℚ) : Bar :=
  { ts := ⟨n, 2024, 1, d, 0⟩, open_ := c, high := c, low := c, close := c, volume := 1 }

/-- The table with close prices `[100, 105, 95, 110]` from the spec. -/
def c5table : Table :=
  mkFetched "AAA" [c5bar 0 1 100, c5bar 1 2 105, c5bar 2 3 95, c5bar 3 4 110]

/-- C5: on close prices `[100, 105, 95, 110]` the summary has
`period_high = 110`, `period_low = 95`, `last_price = 110`,
`pct_from_high = 0`, and `pct_from_low = (110 − 95)/95 × 100` (≈ 15.789),
with the extrema taken over the whole table. -/
theorem c5_summary_values :
    summarize "AAA" c5table =
      Except.ok
        { symbol := "AAA", last_price := 110,
          daily_change_pct := (110 - 95) / 95 * 100, volume := 1,
          week_52_high := 110, week_52_low := 95,
          pct_from_high := 0,
          pct_from_low := (110 - 95) / 95 * 100,
          date := (2024, 1, 4) } := by
  norm_num [summarize, c5table, mkFetched, c5bar, dailyChangeE, qdivE, penultClose,
    nthQ, listMax, listMin, max_def, min_def]

/-! ### C6 — daily_change_pct -/

/-- C6: whenever `summarize` succeeds, `daily_change_pct` is `0` for tables
with fewer than 2 rows, and `(last_price − close[-2]) / close[-2] × 100`
for tables with at least 2 rows. -/
theorem c6_daily_change_pct (s : String) (t : Table) (r : SummaryRow)
    (h : summarize s t = Except.ok r) :
    (t.rows.length < 2 → r.daily_change_pct = 0) ∧
    (2 ≤ t.rows.length →
      r.daily_change_pct = (lastClose t - penultClose t) / penultClose t * 100) := by
  unfold summarize at h
  rcases hlast : t.rows.getLast? with _ | latest <;> simp only [hlast] at h
  · cases h
  · rcases hdc : dailyChangeE latest t with e1 | dc <;> simp only [hdc] at h
    · cases h
    · rcases hq2 : qdivE (latest.close - listMax (t.rows.map (fun b => b.close)))
          (listMax (t.rows.map (fun b => b.close))) with e2 | ph <;> simp only [hq2] at h
      · cases h
      · rcases hq3 : qdivE (latest.close - listMin (t.rows.map (fun b => b.close)))
            (listMin (t.rows.map (fun b => b.close))) with e3 | pl <;> simp only [hq3] at h
        · cases h
        · injection h with h'
          subst h'
          constructor
          · intro hlt
            unfold dailyChangeE at hdc
            rw [if_neg (by omega)] at hdc
            injection hdc with hdc'
            simpa using hdc'.symm
          · intro h2
            unfold dailyChangeE at hdc
            rw [if_pos (by omega)] at hdc
            rcases hq : qdivE (latest.close - penultClose t) (penultClose t)
              with e | q <;> rw [hq] at hdc
            · cases hdc
            · injection hdc with hdc'
              unfold qdivE at hq
              split at hq
              · cases hq
              · injection hq with hq'
                have hlc : lastClose t = latest.close := by
                  unfold lastClose
                  rw [hlast]
                dsimp only
                rw [hlc, ← hdc', ← hq']

/-- Bar for the witness tables: all prices 1, volume 1. -/
def wbar : Bar :=
  { ts := ⟨0, 2024, 1, 1, 0⟩, open_ := 1, high := 1, low := 1, close := 1, volume := 1 }

def wrow : SummaryRow :=
  { symbol := "B", last_price := 1, daily_change_pct := 0, volume := 1,
    week_52_high := 1, week_52_low := 1, pct_from_high := 0, pct_from_low := 0,
    date := (2024, 1, 1) }

theorem summarize_wtable : summarize "B" (mkFetched "B" [wbar]) = Except.ok wrow := by
  norm_num [summarize, mkFetched, wbar, wrow, dailyChangeE, qdivE, penultClose,
    nthQ, listMax, listMin, max_def, min_def]

/-- C6 (witness): the statement applied to a concrete one-row table. -/
theorem c6_witness : wrow.daily_change_pct = 0 :=
  (c6_daily_change_pct "B" (mkFetched "B" [wbar]) wrow summarize_wtable).1 (by decide)

/-! ### C9 — empty-series guard -/

theorem qdivE_error (a b : ℚ) (e : SummErr) (h : qdivE a b = Except.error e) :
    e = SummErr.divByZero := by
  unfold qdivE at h
  split at h
  · injection h with h'
    exact h'.symm
  · cases h

theorem dailyChangeE_error (latest : Bar) (t : Table) (e : SummErr)
    (h : dailyChangeE latest t = Except.error e) : e = SummErr.divByZero := by
  unfold dailyChangeE at h
  split at h
  · rcases hq : qdivE (latest.close - penultClose t) (penultClose t)
      with e2 | q <;> rw [hq] at h
    · injection h with h'
      rw [← h']
      exact qdivE_error _ _ _ hq
    · cases h
  · cases h

theorem summarize_of_empty (s : String) (t : Table) (h : t.rows = []) :
    summarize s t = Except.error SummErr.emptySeries := by
  unfold summarize
  rw [h]
  rfl

theorem summarize_ne_empty_of_rows (s : String) (t : Table) (hne : t.rows ≠ []) :
    summarize s t ≠ Except.error SummErr.emptySeries := by
  obtain ⟨latest, hlast⟩ := Option.isSome_iff_exists.mp (List.getLast?_isSome.mpr hne)
  unfold summarize
  simp only [hlast]
  rcases hdc : dailyChangeE latest t with e1 | dc <;> simp only [hdc]
  · intro h
    injection h with h'
    rw [dailyChangeE_error latest t e1 hdc] at h'
    cases h'
  · rcases hq2 : qdivE (latest.close - listMax (t.rows.map (fun b => b.close)))
        (listMax (t.rows.map (fun b => b.close))) with e2 | ph <;> simp only [hq2]
    · intro h
      injection h with h'
      rw [qdivE_error _ _ _ hq2] at h'
      cases h'
    · rcases hq3 : qdivE (latest.close - listMin (t.rows.map (fun b => b.close)))
          (listMin (t.rows.map (fun b => b.close))) with e3 | pl <;> simp only [hq3]
      · intro h
        injection h with h'
        rw [qdivE_error _ _ _ hq3] at h'
        cases h'
      · intro h
        cases h

/-- C9: `summarize` reports the empty-series error exactly on zero-row
tables, and `create_summary_table` skips such a symbol's row while the
other symbols' summaries proceed unchanged. -/
theorem c9_empty_series :
    (∀ (s : String) (t : Table),
        summarize s t = Except.error SummErr.emptySeries ↔ t.rows = []) ∧
    (∀ (sym : String) (t : Table) (pre post : List (String × Table)),
        t.rows = [] →
        create_summary_table (pre ++ (sym, t) :: post) =
          create_summary_table pre ++ create_summary_table post) := by
  constructor
  · intro s t
    constructor
    · intro h
      by_contra hne
      exact summarize_ne_empty_of_rows s t hne h
    · exact summarize_of_empty s t
  · intro sym t pre post h
    unfold create_summary_table
    rw [List.filterMap_append, List.filterMap_cons]
    have hnone : (summarize sym t).toOption = none := by
      rw [summarize_of_empty sym t h]
      rfl
    simp [hnone]

/-- C9 (witness): the statement applied to the empty table. -/
theorem c9_witness :
    summarize "E" emptyTable = Except.error SummErr.emptySeries ∧
    create_summary_table ([] ++ ("E", emptyTable) :: []) =
      create_summary_table [] ++ create_summary_table [] :=
  ⟨(c9_empty_series.1 "E" emptyTable).mpr rfl,
    c9_empty_series.2 "E" emptyTable [] [] rfl⟩

/-! ### C10 — unguarded divisions -/

theorem dailyChangeE_penult_zero (latest : Bar) (t : Table) (h2 : 2 ≤ t.rows.length)
    (h : penultClose t = 0) : dailyChangeE latest t = Except.error SummErr.divByZero := by
  unfold dailyChangeE qdivE
  rw [if_pos (by omega), h, if_pos rfl]

/-- C10: the summary divisions have no zero-denominator guard: for every
table with at least 2 rows whose second-to-last close is 0, or whose
maximum or minimum close is 0, the computation reaches a division by zero
and the checked embedding returns the `divByZero` error. -/
theorem c10_div_by_zero_reachable (s : String) (t : Table) (h2 : 2 ≤ t.rows.length)
    (hz : penultClose t = 0 ∨ listMax (t.rows.map (fun b => b.close)) = 0 ∨
      listMin (t.rows.map (fun b => b.close)) = 0) :
    summarize s t = Except.error SummErr.divByZero := by
  have hne : t.rows ≠ [] := by
    intro he
    rw [he] at h2
    simp at h2
  obtain ⟨latest, hlast⟩ := Option.isSome_iff_exists.mp (List.getLast?_isSome.mpr hne)
  unfold summarize
  simp only [hlast]
  rcases hdc : dailyChangeE latest t with e1 | dc <;> simp only [hdc]
  · rw [dailyChangeE_error latest t e1 hdc]
  · rcases hq2 : qdivE (latest.close - listMax (t.rows.map (fun b => b.close)))
        (listMax (t.rows.map (fun b => b.close))) with e2 | ph <;> simp only [hq2]
    · rw [qdivE_error _ _ _ hq2]
    · rcases hq3 : qdivE (latest.close - listMin (t.rows.map (fun b => b.close)))
          (listMin (t.rows.map (fun b => b.close))) with e3 | pl <;> simp only [hq3]
      · rw [qdivE_error _ _ _ hq3]
      · exfalso
        rcases hz with h | h | h
        · rw [dailyChangeE_penult_zero latest t h2 h] at hdc
          cases hdc
        · rw [h] at hq2
          unfold qdivE at hq2
          rw [if_pos rfl] at hq2
          cases hq2
        · rw [h] at hq3
          unfold qdivE at hq3
          rw [if_pos rfl] at hq3
          cases hq3

/-- Two-row table whose second-to-last close is 0. -/
def ztable : Table := mkFetched "Z" [c5bar 0 1 0, c5bar 1 2 1]

/-- C10 (witness): the statement applied to a table with `close[-2] = 0`. -/
theorem c10_witness : summarize "Z" ztable = Except.error SummErr.divByZero :=
  c10_div_by_zero_reachable "Z" ztable (by decide)
    (Or.inl (by norm_num [penultClose, ztable, mkFetched, c5bar, nthQ]))

/-! ### C7 — per-symbol skip and two-symbol batch -/

theorem fetch_data_skip (fetch : String → Option (List Bar)) (pre post : List String)
    (s : String) (h : fetch s = none ∨ fetch s = some []) :
    fetch_data fetch (pre ++ s :: post) =
      fetch_data fetch pre ++ fetch_data fetch post := by
  unfold fetch_data
  rw [List.filterMap_append, List.filterMap_cons]
  rcases h with h | h <;> simp [h]

theorem appendTable_emptyTable (t : Table) : appendTable emptyTable t = t := by
  unfold appendTable emptyTable
  rw [if_pos ⟨rfl, rfl⟩]

theorem concat_single (t : Table) : concatTables [t] = t := by
  show appendTable emptyTable t = t
  exact appendTable_emptyTable t

theorem batch_two_symbols (sqrtA : ℚ → ℚ) (fetch : String → Option (List Bar))
    (a b : String) (bs : List Bar) (r : SummaryRow)
    (ha : fetch a = none) (hb : fetch b = some bs) (hbs : bs ≠ [])
    (hsum : summarize b (add_technical_indicators sqrtA (mkFetched b bs)).caller =
      Except.ok r) :
    (process_all_stocks sqrtA fetch [a, b]).perSymbol =
      [(b, (add_technical_indicators sqrtA (mkFetched b bs)).result)] ∧
    (process_all_stocks sqrtA fetch [a, b]).summary = [r] ∧
    (process_all_stocks sqrtA fetch [a, b]).combined =
      (add_technical_indicators sqrtA (mkFetched b bs)).result := by
  have hempty : bs.isEmpty = false := by
    cases bs with
    | nil => exact absurd rfl hbs
    | cons x xs => rfl
  have hfd : fetch_data fetch [a, b] = [(b, mkFetched b bs)] := by
    unfold fetch_data
    simp [ha, hb, hbs]
  have hps : process_all_stocks sqrtA fetch [a, b] =
      { perSymbol := [(b, (add_technical_indicators sqrtA (mkFetched b bs)).result)]
        combined := concatTables [(add_technical_indicators sqrtA (mkFetched b bs)).result]
        summary := create_summary_table
          [(b, (add_technical_indicators sqrtA (mkFetched b bs)).caller)] } := by
    unfold process_all_stocks
    rw [hfd]
    rfl
  rw [hps]
  refine ⟨rfl, ?_, ?_⟩
  · show create_summary_table
        [(b, (add_technical_indicators sqrtA (mkFetched b bs)).caller)] = [r]
    unfold create_summary_table
    simp [Except.toOption, hsum]
  · exact concat_single _

/-- C7: (i) a symbol whose fetch raises, or yields zero rows, is skipped by
`fetch_data` while the rest of the batch is unaffected; (ii) for two symbols
where one fetch fails and one succeeds (non-empty), the batch result has
exactly one per-symbol table, exactly one summary row, and its combined
table equals that one symbol's enriched table. -/
theorem c7_batch_skip :
    (∀ (fetch : String → Option (List Bar)) (pre post : List String) (s : String),
        (fetch s = none ∨ fetch s = some []) →
        fetch_data fetch (pre ++ s :: post) =
          fetch_data fetch pre ++ fetch_data fetch post) ∧
    (∀ (sqrtA : ℚ → ℚ) (fetch : String → Option (List Bar)) (a b : String)
        (bs : List Bar) (r : SummaryRow),
        fetch a = none → fetch b = some bs → bs ≠ [] →
        summarize b (add_technical_indicators sqrtA (mkFetched b bs)).caller =
          Except.ok r →
        (process_all_stocks sqrtA fetch [a, b]).perSymbol =
          [(b, (add_technical_indicators sqrtA (mkFetched b bs)).result)] ∧
        (process_all_stocks sqrtA fetch [a, b]).summary = [r] ∧
        (process_all_stocks sqrtA fetch [a, b]).combined =
          (add_technical_indicators sqrtA (mkFetched b bs)).result) :=
  ⟨fetch_data_skip, fun sqrtA fetch a b bs r ha hb hbs hsum =>
    batch_two_symbols sqrtA fetch a b bs r ha hb hbs hsum⟩

theorem summarize_rows_eq (s : String) (t u : Table) (h : t.rows = u.rows) :
    summarize s t = summarize s u := by
  unfold summarize dailyChangeE penultClose
  rw [h]

/-- The fetch collaborator for the witness: "B" succeeds, others raise. -/
def wfetch : String → Option (List Bar) := fun s => if s = "B" then some [wbar] else none

theorem summarize_wcaller :
    summarize "B" (add_technical_indicators id (mkFetched "B" [wbar])).caller =
      Except.ok wrow :=
  (summarize_rows_eq "B" _ _ (by rw [enrich_caller id _]; exact rows_setCol _ _ _)).trans
    summarize_wtable

/-- C7 (witness): both parts applied to concrete symbols and a concrete
fetch collaborator. -/
theorem c7_witness :
    fetch_data wfetch (["A"] ++ "C" :: ["B"]) =
      fetch_data wfetch ["A"] ++ fetch_data wfetch ["B"] ∧
    (process_all_stocks id wfetch ["A", "B"]).perSymbol =
      [("B", (add_technical_indicators id (mkFetched "B" [wbar])).result)] ∧
    (process_all_stocks id wfetch ["A", "B"]).summary = [wrow] ∧
    (process_all_stocks id wfetch ["A", "B"]).combined =
      (add_technical_indicators id (mkFetched "B" [wbar])).result := by
  have h2 := c7_batch_skip.2 id wfetch "A" "B" [wbar] wrow (by simp [wfetch])
    (by simp [wfetch]) (by simp) summarize_wcaller
  exact ⟨c7_batch_skip.1 wfetch ["A"] ["B"] "C" (Or.inl (by simp [wfetch])),
    h2.1, h2.2.1, h2.2.2⟩
